import Mathlib

/-!
Verification of the feedback-collection service in `backend/main.py`
(submission store, sentiment heuristic, AI-pack generator, JSON extraction,
stats endpoint) against its natural-language specification.

Shallow embedding conventions:
* Python strings are Lean `String`s; all character-level operations are
  reimplemented structurally on `List Char` so that every definition
  evaluates inside the kernel (`decide`).  `Char.toLower` /
  `Char.isWhitespace` model Python's `str.lower` / `str.split()` whitespace
  handling (both agree on ASCII, which is all this system produces).
* JSON values are modeled by a stratified type (`JAtom`, `JItem`, `JSub`,
  `JTop`): scalars, elements of a submissions array, values of a top-level
  object, and whole documents.  The repository only ever writes records
  whose field values are scalars, and the claims never need deeper nesting.
* The external model (Gemini) and Python's `json.loads` are oracles: they
  are passed in as parameters (`Option String` for the model response,
  `String → Option JTop` for the JSON parser), since they are third-party
  code, not code of this repository.
* Fallible Python code (try/except) is modeled by `Option` / `Except`.
-/

namespace Fynd

/-! ### Character-list string utilities (Python string operations) -/

/-- The ASCII left-brace character, `Char.ofNat 123`. -/
def lbrace : Char := Char.ofNat 123

/-- The ASCII right-brace character, `Char.ofNat 125`. -/
def rbrace : Char := Char.ofNat 125

/-- Strict lexicographic order on character lists: Python's `<` on strings
(code-point comparison). -/
def charListLt : List Char → List Char → Bool
  | [], [] => false
  | [], _ :: _ => true
  | _ :: _, [] => false
  | a :: as, b :: bs => if a < b then true else if b < a then false else charListLt as bs

/-- `str.strip()` on the underlying character list. -/
def trimData (cs : List Char) : List Char :=
  ((cs.dropWhile Char.isWhitespace).reverse.dropWhile Char.isWhitespace).reverse

/-- Python `str.strip()`. -/
def pyTrim (s : String) : String := ⟨trimData s.data⟩

/-- Python `str.lower()` (ASCII; all keywords and stored text are ASCII). -/
def pyLower (s : String) : String := ⟨s.data.map Char.toLower⟩

/-- Helper for Python `str.split()`: accumulate the current word (reversed)
while scanning; whitespace runs separate words, empty pieces are dropped. -/
def wordsAux : List Char → List Char → List (List Char)
  | [], acc => if acc = [] then [] else [acc.reverse]
  | c :: cs, acc =>
    if c.isWhitespace then
      if acc = [] then wordsAux cs [] else acc.reverse :: wordsAux cs []
    else wordsAux cs (c :: acc)

/-- Python `str.split()` (split on whitespace runs, no empty pieces). -/
def pySplitWs (s : String) : List String := (wordsAux s.data []).map String.mk

/-- Python `" ".join(ws)`. -/
def joinSpace : List String → String
  | [] => ""
  | [w] => w
  | w :: ws => w ++ " " ++ joinSpace ws

/-- Is `n` a prefix of `l`? (character lists) -/
def isPrefixOfData : List Char → List Char → Bool
  | [], _ => true
  | _ :: _, [] => false
  | a :: as, b :: bs => if a = b then isPrefixOfData as bs else false

/-- Does `hay` contain `needle` as a contiguous substring? -/
def containsSub (needle : List Char) : List Char → Bool
  | [] => isPrefixOfData needle []
  | b :: bs => isPrefixOfData needle (b :: bs) || containsSub needle bs

/-- Python `needle in hay` (substring containment). -/
def strContains (hay needle : String) : Bool := containsSub needle.data hay.data

/-- Python `s.endswith(suf)`. -/
def strEndsWith (s suf : String) : Bool :=
  isPrefixOfData suf.data.reverse s.data.reverse

/-- Python `int(s)`: digits of a decimal numeral. -/
def digitsToNat : List Char → Option Nat
  | [] => none
  | ds =>
    if ds.all Char.isDigit then
      some (ds.foldl (fun a c => 10 * a + (c.toNat - 48)) 0)
    else none

/-- Python `int(s)` on a string: optional surrounding whitespace, optional
sign, then decimal digits; anything else raises (`none`). -/
def parseIntPy (s : String) : Option Int :=
  match trimData s.data with
  | '-' :: ds => (digitsToNat ds).map (fun n => -(n : Int))
  | '+' :: ds => (digitsToNat ds).map (fun n => (n : Int))
  | ds => (digitsToNat ds).map (fun n => (n : Int))

/-! ### JSON model -/

/-- JSON scalar values. -/
inductive JAtom where
  | null : JAtom
  | bool (b : Bool) : JAtom
  | num (n : Int) : JAtom
  | str (s : String) : JAtom
deriving DecidableEq

/-- A stored submission record: a JSON object with scalar field values
(the only kind of record this service ever writes). -/
abbrev Rec := List (String × JAtom)

/-- An element of a top-level JSON array (e.g. of the submissions array). -/
inductive JItem where
  | atom (a : JAtom) : JItem
  | arr (xs : List JAtom) : JItem
  | obj (kvs : Rec) : JItem
deriving DecidableEq

/-- A value of a top-level JSON object (e.g. the `submissions` wrapper). -/
inductive JSub where
  | atom (a : JAtom) : JSub
  | arr (xs : List JItem) : JSub
  | obj (kvs : Rec) : JSub
deriving DecidableEq

/-- A whole JSON document (the backing file's parsed content). -/
inductive JTop where
  | atom (a : JAtom) : JTop
  | arr (xs : List JItem) : JTop
  | obj (kvs : List (String × JSub)) : JTop
deriving DecidableEq

/-- Python `d.get(k)` on a dict rendered as an association list (dicts have
unique keys, so first-match lookup is exact). -/
def jget : Rec → String → Option JAtom
  | [], _ => none
  | (k', v) :: r, k => if k' = k then some v else jget r k

/-- `d.get(k)` for a top-level object (values one level deep). -/
def jgetSub : List (String × JSub) → String → Option JSub
  | [], _ => none
  | (k', v) :: r, k => if k' = k then some v else jgetSub r k

/-- Python `{**s, **u}`: every key of `s` keeps its position, its value
overridden by `u` when `u` has that key; keys only in `u` are appended. -/
def dictMerge (s u : Rec) : Rec :=
  (s.map (fun p => (p.1, (jget u p.1).getD p.2))) ++
    (u.filter (fun p => (jget s p.1).isNone))

/-! ### Sentiment heuristic (`_predict_stars_from_text_heuristic`,
`backend/main.py` lines 135-219) -/

def strong_pos : List String :=
  ["amazing", "excellent", "outstanding", "perfect", "incredible",
   "fantastic", "love", "highly recommend"]

def soft_pos : List String :=
  ["good", "tasty", "fresh", "nice", "friendly", "enjoyed", "satisfied",
   "would come back"]

def strong_neg : List String :=
  ["terrible", "horrible", "awful", "worst", "disgusting", "never again",
   "ruined", "unacceptable"]

def soft_neg : List String :=
  ["bad", "cold", "slow", "rude", "disappointed", "disappointing",
   "overpriced", "not good"]

/-- The accumulated signed keyword score over the (already lowercased)
text: +2 per strong-positive, +1 per soft-positive, -2 per strong-negative,
-1 per soft-negative keyword contained as a substring. -/
def keywordScore (text : String) : Int :=
  let s1 := strong_pos.foldl (fun a w => if strContains text w then a + 2 else a) 0
  let s2 := soft_pos.foldl (fun a w => if strContains text w then a + 1 else a) s1
  let s3 := strong_neg.foldl (fun a w => if strContains text w then a - 2 else a) s2
  soft_neg.foldl (fun a w => if strContains text w then a - 1 else a) s3

/-- `_predict_stars_from_text_heuristic(rating, review_text)`.  `rating` is
`Option Int`: `none` models a value on which Python's `int(rating)` raises
(the function is typed `int` but defensively coerces).  The final
`return base` line of the source is unreachable (the score branches are
exhaustive) but kept for fidelity. -/
def predict_stars_from_text_heuristic (rating : Option Int)
    (review_text : String) : Option Int :=
  let text := pyLower review_text
  if pyTrim text = "" then
    match rating with
    | some r => if 1 ≤ r ∧ r ≤ 5 then some r else none
    | none => none
  else
    let score := keywordScore text
    let base :=
      match rating with
      | some r => if 1 ≤ r ∧ r ≤ 5 then r else 3
      | none => 3
    if 4 ≤ score then some 5
    else if score = 3 then some 4
    else if score = 2 then some (if 4 ≤ base then 4 else 3)
    else if score = 1 then some (if base ≤ 3 then 3 else 4)
    else if score = 0 then some base
    else if score = -1 then some (if base ≤ 3 then 2 else 3)
    else if score ≤ -2 then some 1
    else some base

/-! ### Instant AI pack (`_instant_ai_pack`, `backend/main.py` lines 222-313) -/

/-- The review snippet before ellipsis handling
(`" ".join(str(review_text).strip().split()[:18]).strip()`, line 224). -/
def snippet_core (review_text : String) : String :=
  pyTrim (joinSpace ((pySplitWs (pyTrim review_text)).take 18))

/-- `snippet.endswith((".", "!", "?"))` (line 225). -/
def endsTerminalPunct (s : String) : Bool :=
  strEndsWith s "." || strEndsWith s "!" || strEndsWith s "?"

/-- The snippet after ellipsis handling (lines 224-226): `"..."` is appended
whenever the snippet is non-empty and does not already end in terminal
punctuation. -/
def mkSnippet (review_text : String) : String :=
  let s := snippet_core review_text
  if s ≠ "" ∧ endsTerminalPunct s = false then s ++ "..." else s

/-- The AI pack returned by `generate_ai_pack` / `_instant_ai_pack`. -/
structure AIPack where
  ai_response : String
  ai_summary : String
  ai_recommended_actions : String
  predicted_stars : Option Int
  prediction_explanation : String
deriving DecidableEq

/-- Python `str(rating)` for the (possibly unparseable) rating value. -/
def ratingDisplay (rating : Option Int) : String :=
  match rating with
  | some r => toString r
  | none => "None"

/-- The customer-facing response of the instant pack (one of the three tone
buckets; apostrophes in the source text are written `\x27`). -/
def instantResponse (name snippet ratingStr : String) (effective : Int) : String :=
  if effective ≤ 2 then
    "Hi " ++ name ++
      ", thank you for telling us about your experience. I\x27m really sorry things did not go well. We take feedback like \x27" ++
      (if snippet = "" then "your review" else snippet) ++
      "\x27 seriously and we\x27ll work with our team to fix these issues. We hope you\x27ll give us another chance so we can make your next visit much better."
  else if effective = 3 then
    "Thank you " ++ name ++
      " for the honest and balanced feedback. You mentioned \x27" ++
      (if snippet = "" then "both positives and negatives" else snippet) ++
      "\x27, and we\x27ll use this to improve. We appreciate you giving us a chance and hope your next visit will feel even better."
  else
    "Thank you " ++ name ++
      " for such a wonderful review and the " ++ ratingStr ++
      "-star rating! We\x27re really happy you enjoyed your visit, especially your note: \x27" ++
      (if snippet = "" then "your kind words" else snippet) ++
      "\x27. We\x27re grateful to have you as a customer and we\x27re still improving our service every day to make your future visits even better."

/-- The recommended-actions text of the instant pack (fixed template per
tone bucket; the source's corrupted en-dash in "1-2 weeks" is
transliterated to a plain hyphen). -/
def instantActions (effective : Int) : String :=
  if effective ≤ 2 then
    "Here is a quick action plan based on this negative experience:\n1. Investigate the specific problems mentioned in the review and document the root causes so the team clearly understands what went wrong.\n2. Provide targeted coaching or refresher training for the staff involved, focusing on service recovery, communication, and food quality standards.\n3. Proactively follow up with the customer, explain the corrective steps you are taking, and offer a recovery gesture (apology, replacement, or discount) to rebuild trust."
  else if effective = 3 then
    "Here is a balanced improvement plan for this mixed review:\n1. Identify the main friction point mentioned (for example, speed, consistency, or communication) and create a small experiment or SOP change to address it over the next 1-2 weeks.\n2. Preserve the strengths the customer liked by sharing those positives with the team and building them into your standard operating procedures.\n3. Monitor reviews with similar themes and track before/after ratings so you can confirm whether the changes are actually improving the guest experience."
  else
    "Here is how you can turn this positive feedback into long-term value:\n1. Share this review with the full team to recognize their effort, and call out any specific individuals or shifts that contributed so they feel appreciated.\n2. Document what went especially well (speed, flavor, friendliness, ambiance) and turn those behaviors into clear standards or checklists for every shift.\n3. Use this review in your marketing or in-store signage (with permission), and train staff to invite similarly satisfied guests to leave their own reviews to build momentum."

/-- The one-line admin summary of the instant pack, embedding the snippet
(or a default phrase when the snippet is empty). -/
def instantSummary (snippet ratingStr : String) (effective : Int) : String :=
  if effective ≤ 2 then
    "Customer gave a " ++ ratingStr ++
      "-star rating and the review feels **negative**. Key issue described: **" ++
      (if snippet = "" then "no clear details provided" else snippet) ++ "**."
  else if effective = 3 then
    "Customer gave a " ++ ratingStr ++
      "-star rating and the review sounds **mixed/neutral**. Main points: **" ++
      (if snippet = "" then "no clear details provided" else snippet) ++ "**."
  else
    "Customer gave a " ++ ratingStr ++
      "-star rating and the review feels **positive**. Key praise: **" ++
      (if snippet = "" then "no extra details provided" else snippet) ++ "**."

/-- `_instant_ai_pack(rating, review_text, username)` (lines 222-313).
The `if predicted_stars is None` recovery on line 298 is unreachable
(`effective_rating` is always set) and is therefore elided; the final
range clamp (line 304) is kept. -/
def instant_ai_pack (rating : Option Int) (review_text : String)
    (username : Option String) : AIPack :=
  let name := match username with
    | some u => if u = "" then "there" else u
    | none => "there"
  let snippet := mkSnippet review_text
  let sentiment_based := predict_stars_from_text_heuristic rating review_text
  let base_rating := match rating with
    | some r => if 1 ≤ r ∧ r ≤ 5 then r else 3
    | none => 3
  let effective_rating := sentiment_based.getD base_rating
  let predicted_stars :=
    if 1 ≤ effective_rating ∧ effective_rating ≤ 5 then effective_rating else 3
  { ai_response := instantResponse name snippet (ratingDisplay rating) effective_rating
    ai_summary := instantSummary snippet (ratingDisplay rating) effective_rating
    ai_recommended_actions := instantActions effective_rating
    predicted_stars := some predicted_stars
    prediction_explanation :=
      "Prediction approximated from the text sentiment and given rating for a fast response." }

/-- `_fallback_ai_pack` (lines 316-322): delegates to the instant pack. -/
def fallback_ai_pack (rating : Option Int) (review_text : String)
    (username : Option String) : AIPack :=
  instant_ai_pack rating review_text username

/-! ### JSON extraction (`extract_json_strong`, lines 114-133) -/

/-- The substring matched by `re.search(r"\x7b[\s\S]*\x7d", cleaned)`:
the span from the first opening brace to the last closing brace, provided
some closing brace occurs after the first opening brace (the regex is
greedy, so it extends to the last closing brace of the string). -/
def braceSpan (s : String) : Option String :=
  let mid0 := s.data.dropWhile (fun c => decide (c ≠ lbrace))
  let mid1 := (mid0.reverse.dropWhile (fun c => decide (c ≠ rbrace))).reverse
  if mid0 = [] then none
  else if mid1 = [] then none
  else some ⟨mid1⟩

/-- `extract_json_strong(raw)` (lines 114-133).  Python's `json.loads` is
third-party code and is passed in as the oracle `parse` (`none` models a
parse exception).  A whole-string parse is tried first; a non-object result
returns `None` outright; only a parse failure falls through to parsing the
brace-delimited span. -/
def extract_json_strong (parse : String → Option JTop) (raw : String) :
    Option (List (String × JSub)) :=
  if raw = "" then none
  else
    let cleaned := pyTrim raw
    match parse cleaned with
    | some (.obj kvs) => some kvs
    | some _ => none
    | none =>
      match braceSpan cleaned with
      | none => none
      | some cand =>
        match parse cand with
        | some (.obj kvs) => some kvs
        | _ => none

/-! ### AI pack generator (`generate_ai_pack`, lines 324-450) -/

/-- Python truthiness of a parsed JSON value (`x or default`). -/
def jTruthySub : JSub → Bool
  | .atom .null => false
  | .atom (.bool b) => b
  | .atom (.num n) => decide (n ≠ 0)
  | .atom (.str s) => decide (s ≠ "")
  | .arr xs => decide (xs ≠ [])
  | .obj kvs => decide (kvs ≠ [])

/-- Python `str()` of a JSON scalar. -/
def pyStrAtom : JAtom → String
  | .null => "None"
  | .bool b => if b then "True" else "False"
  | .num n => toString n
  | .str s => s

/-- Python `repr()` of a scalar inside a container (strings get quotes). -/
def pyReprAtom : JAtom → String
  | .str s => "\x27" ++ s ++ "\x27"
  | a => pyStrAtom a

/-- `", ".join(parts)`. -/
def joinComma : List String → String
  | [] => ""
  | [w] => w
  | w :: ws => w ++ ", " ++ joinComma ws

/-- Python `repr()` of an array element inside a container. -/
def pyReprItem : JItem → String
  | .atom a => pyReprAtom a
  | .arr xs => "[" ++ joinComma (xs.map pyReprAtom) ++ "]"
  | .obj kvs =>
    String.mk [lbrace] ++
      joinComma (kvs.map (fun p => "\x27" ++ p.1 ++ "\x27: " ++ pyReprAtom p.2)) ++
      String.mk [rbrace]

/-- Python `str()` of a parsed JSON value (list/dict rendering approximates
CPython's `repr`; only non-emptiness of the result matters downstream). -/
def pyStrSub : JSub → String
  | .atom a => pyStrAtom a
  | .arr xs => "[" ++ joinComma (xs.map pyReprItem) ++ "]"
  | .obj kvs =>
    String.mk [lbrace] ++
      joinComma (kvs.map (fun p => "\x27" ++ p.1 ++ "\x27: " ++ pyReprAtom p.2)) ++
      String.mk [rbrace]

/-- `str(parsed.get(k) or "")` (lines 420-422). -/
def pyStrOr (v : Option JSub) : String :=
  match v with
  | none => ""
  | some j => if jTruthySub j then pyStrSub j else ""

/-- `str(parsed.get(k) or default)` (line 423). -/
def pyStrOrElse (v : Option JSub) (default : String) : String :=
  match v with
  | none => default
  | some j => if jTruthySub j then pyStrSub j else default

/-- Python `int()` of a parsed JSON value: ints pass through, bools coerce
to 0/1, numeric strings parse; everything else raises (`none`). -/
def toIntPySub : JSub → Option Int
  | .atom (.num n) => some n
  | .atom (.bool b) => some (if b then 1 else 0)
  | .atom (.str s) => parseIntPy s
  | _ => none

/-- `generate_ai_pack(rating, review_text, username)` (lines 324-450).
The external model invocation is an oracle: `modelConfigured` models
`model is not None`, and `response` models `response.text` of
`_generate_content_with_timeout` (`none` for no response, a timeout, or an
invocation error — all of which yield empty `raw` or an immediate
fallback).  The prompt string (lines 331-413) is built and sent to the
oracle but cannot affect the result given the oracle's reply, so it is not
reproduced here. -/
def generate_ai_pack (parse : String → Option JTop) (modelConfigured : Bool)
    (response : Option String) (rating : Option Int) (review_text : String)
    (username : Option String) : AIPack :=
  if modelConfigured = false then fallback_ai_pack rating review_text username
  else
    let raw := match response with
      | some t => pyTrim t
      | none => ""
    let parsed := (extract_json_strong parse raw).getD []
    let airesp := pyTrim (pyStrOr (jgetSub parsed "ai_response"))
    let aisumm := pyTrim (pyStrOr (jgetSub parsed "ai_summary"))
    let aiact := pyTrim (pyStrOr (jgetSub parsed "ai_recommended_actions"))
    let explanation := pyTrim (pyStrOrElse (jgetSub parsed "prediction_explanation") "AI prediction")
    let predicted0 : Option Int :=
      match jgetSub parsed "predicted_stars" with
      | none => none
      | some v =>
        if v = .atom .null ∨ v = .atom (.str "") then none
        else match toIntPySub v with
          | some n => if 1 ≤ n ∧ n ≤ 5 then some n else none
          | none => none
    let predicted_stars :=
      match predicted0 with
      | none => predict_stars_from_text_heuristic rating review_text
      | some n => some n
    if airesp = "" ∨ aisumm = "" ∨ aiact = "" then
      fallback_ai_pack rating review_text username
    else
      { ai_response := airesp
        ai_summary := aisumm
        ai_recommended_actions := aiact
        predicted_stars := predicted_stars
        prediction_explanation := if explanation = "" then "AI prediction" else explanation }

/-! ### Submission store (`backend/main.py` lines 77-78, 613-714) -/

/-- The submission store state: the parse outcome of the backing JSON file
(`none` models content on which `json.load` raises), a version counter
standing for the file's mtime, and the mtime-keyed in-process cache
(`_submissions_cache_mtime` / `_submissions_cache_data`; `cacheVer = none`
models the initial `None` mtime).  The store lock serializes every
operation, so operations are modeled as sequential state transformers. -/
structure Store where
  file : Option JTop
  fileVer : Nat
  cacheVer : Option Nat
  cache : List Rec
deriving DecidableEq

/-- Shape handling of `_load_submissions_unlocked` (lines 627-634): a dict
wrapping a `submissions` list, or a top-level list, else empty; non-dict
elements are filtered out. -/
def shapeSubs (raw : JTop) : List Rec :=
  let items := match raw with
    | .obj kvs =>
      match jgetSub kvs "submissions" with
      | some (.arr l) => l
      | _ => []
    | .arr l => l
    | _ => []
  items.filterMap (fun i => match i with | .obj r => some r | _ => none)

/-- Python's `x.get("timestamp", "")` sort key raises `TypeError` when a
present timestamp is not a string (caught by the enclosing handler, which
returns `[]`); this guard models that exception path. -/
def sortable (rs : List Rec) : Bool :=
  rs.all (fun r =>
    match jget r "timestamp" with
    | some (.str _) => true
    | none => true
    | some _ => false)

/-- The sort key `x.get("timestamp", "")` (line 637). -/
def recTs (r : Rec) : String :=
  match jget r "timestamp" with
  | some (.str s) => s
  | _ => ""

/-- Stable descending insertion: `x` passes over elements with a strictly
larger key and stops before the first element whose key is not larger, so
equal keys keep their original relative order. -/
def insertDescByTs (x : Rec) : List Rec → List Rec
  | [] => [x]
  | y :: ys =>
    if charListLt (recTs x).data (recTs y).data then y :: insertDescByTs x ys
    else x :: y :: ys

/-- `submissions.sort(key=lambda x: x.get("timestamp", ""), reverse=True)`
(line 637): Python's sort is stable, and a stable insertion sort computes
the same (unique) stable newest-first ordering. -/
def sortByTsDesc : List Rec → List Rec
  | [] => []
  | x :: xs => insertDescByTs x (sortByTsDesc xs)

/-- `_load_submissions_unlocked()` (lines 613-648): cache hit when the
cached mtime equals the file's mtime; otherwise parse (a parse or sort
exception degrades to `[]` without touching the cache), extract the
submissions, sort newest-first, and fill the cache. -/
def load_unlocked (s : Store) : List Rec × Store :=
  if s.cacheVer = some s.fileVer then (s.cache, s)
  else
    match s.file with
    | none => ([], s)
    | some raw =>
      let subs0 := shapeSubs raw
      if sortable subs0 then
        let subs := sortByTsDesc subs0
        (subs, { s with cacheVer := some s.fileVer, cache := subs })
      else ([], s)

/-- `load_submissions()` (lines 650-654): takes the lock and delegates. -/
def load_submissions (s : Store) : List Rec × Store := load_unlocked s

/-- `save_submission(submission)` (lines 656-669): load under the lock,
append, atomically rewrite the file, and refresh the cache with the
appended (unsorted!) list.  The write-failure branch (returning `None`) is
not modeled: the atomic replace is assumed to succeed, which is the case
every claim speaks about. -/
def save_submission (x : Rec) (s : Store) : Option Rec × Store :=
  let r := load_unlocked s
  let subs := r.1 ++ [x]
  let ver := r.2.fileVer + 1
  (some x,
    { file := some (.arr (subs.map JItem.obj)), fileVer := ver,
      cacheVer := some ver, cache := subs })

/-- The record-matching predicate `s.get("id") == submission_id`. -/
def matchesId (id : String) (r : Rec) : Bool :=
  decide (jget r "id" = some (JAtom.str id))

/-- The update loop of `update_submission_return` (lines 677-681): replace
the first record matching `p` by its merge with `updates`, returning the
new list and the merged record; `none` when no record matches. -/
def updateFirst (p : Rec → Bool) (u : Rec) : List Rec → Option (List Rec × Rec)
  | [] => none
  | r :: rs =>
    if p r then some ((dictMerge r u) :: rs, dictMerge r u)
    else
      match updateFirst p u rs with
      | none => none
      | some (l, m) => some (r :: l, m)

/-- `update_submission_return(submission_id, updates)` (lines 671-691):
merge `updates` into the first record with the given id, rewrite the file
and refresh the cache, returning the merged record; on a missing id return
`None` without writing. -/
def update_submission_return (id : String) (updates : Rec) (s : Store) :
    Option Rec × Store :=
  let r := load_unlocked s
  match updateFirst (matchesId id) updates r.1 with
  | none => (none, r.2)
  | some (subs2, merged) =>
    let ver := r.2.fileVer + 1
    (some merged,
      { file := some (.arr (subs2.map JItem.obj)), fileVer := ver,
        cacheVer := some ver, cache := subs2 })

/-! ### Review submission (`submit_review`, lines 776-816) -/

/-- The generated submission id (line 787):
`f"sub_{datetime.now().strftime('%Y%m%d%H%M%S')}_{secrets.randbelow(100)}"`.
The wall clock (a 14-digit second-resolution stamp) and the random draw
below 100 are oracles passed in as parameters. -/
def genId (ts14 : String) (rnd : Fin 100) : String :=
  "sub_" ++ ts14 ++ "_" ++ toString rnd.val

/-- The submission dict built by `submit_review` (lines 797-810); the
endpoint hardcodes `username = None`, and the `pack.get(...)` defaults are
unreachable because `generate_ai_pack` always returns a complete pack. -/
def submission_record (ts14 : String) (rnd : Fin 100) (rating : Int)
    (review_text : String) (pack : AIPack) (tsIso : String) : Rec :=
  [("id", .str (genId ts14 rnd)),
   ("rating", .num rating),
   ("review_text", .str review_text),
   ("user_id", .null),
   ("username", .null),
   ("ai_response", .str pack.ai_response),
   ("ai_summary", .str pack.ai_summary),
   ("ai_recommended_actions", .str pack.ai_recommended_actions),
   ("predicted_stars",
     match pack.predicted_stars with
     | some n => .num n
     | none => .null),
   ("prediction_explanation", .str pack.prediction_explanation),
   ("timestamp", .str tsIso),
   ("status", .str "completed")]

/-- `submit_review(payload)` (lines 776-816): generate the pack, build the
record with a fresh id and timestamp, and persist it. -/
def submit_review (parse : String → Option JTop) (modelConfigured : Bool)
    (response : Option String) (ts14 : String) (rnd : Fin 100) (tsIso : String)
    (rating : Int) (review_text : String) (s : Store) : Option Rec × Store :=
  let pack := generate_ai_pack parse modelConfigured response (some rating) review_text none
  save_submission (submission_record ts14 rnd rating review_text pack tsIso) s

/-! ### Stats endpoint (`get_stats`, lines 869-893) -/

/-- The stats payload.  `average_rating_x100` is the mean scaled by 100
(two-decimal fixed point): Python's `round(avg, 2)` on the float mean is
modeled as half-even rounding of the exact rational mean to hundredths. -/
structure StatsOut where
  total_reviews : Nat
  average_rating_x100 : Int
  rating_distribution : List (String × Nat)
deriving DecidableEq

/-- The comprehension `[s["rating"] for s in submissions]` (line 881):
`none` when any record lacks the key (`KeyError`). -/
def getRatings : List Rec → Option (List JAtom)
  | [] => some []
  | r :: rs =>
    match jget r "rating" with
    | none => none
    | some v => (getRatings rs).map (fun l => v :: l)

/-- Python numeric coercion inside `sum`: ints pass, bools count as 0/1,
anything else raises `TypeError`. -/
def toNumPy : JAtom → Option Int
  | .num n => some n
  | .bool b => some (if b then 1 else 0)
  | _ => none

/-- `sum(ratings)`'s element coercion over the whole list (`none` models
the `TypeError` on a non-numeric rating). -/
def toNums : List JAtom → Option (List Int)
  | [] => some []
  | v :: vs =>
    match toNumPy v with
    | none => none
    | some n => (toNums vs).map (fun l => n :: l)

/-- Half-even rounding of the exact rational `a / b` (for `b > 0`),
Python's `round` tie-breaking. -/
def roundHalfEvenDiv (a : Int) (b : Nat) : Int :=
  if b = 0 then 0
  else
    let q := a.fdiv (b : Int)
    let r := a.emod (b : Int)
    if 2 * r < (b : Int) then q
    else if (b : Int) < 2 * r then q + 1
    else if q % 2 = 0 then q else q + 1

/-- `{str(i): ratings.count(i) for i in range(1, 6)}` (line 885). -/
def mkDistribution (ns : List Int) : List (String × Nat) :=
  [1, 2, 3, 4, 5].map (fun i => (toString i, ns.count (i : Int)))

/-- `get_stats()` (lines 869-893): zeros for an empty store; a `KeyError`
on a record without `rating`, or a `TypeError` in `sum`, is caught by the
endpoint's handler and surfaces as HTTP 500 (`Except.error 500`). -/
def get_stats (subs : List Rec) : Except Nat StatsOut :=
  if subs.isEmpty then
    .ok { total_reviews := 0, average_rating_x100 := 0,
          rating_distribution := mkDistribution [] }
  else
    match getRatings subs with
    | none => .error 500
    | some vs =>
      match toNums vs with
      | none => .error 500
      | some ns =>
        .ok { total_reviews := ns.length,
              average_rating_x100 := roundHalfEvenDiv (100 * ns.sum) ns.length,
              rating_distribution := mkDistribution ns }

/-! ### A concrete JSON-parser oracle, used only to instantiate theorems
at concrete inputs -/

/-- A tiny concrete parser recognizing three fixed documents: the array
`[` `{` `}` `]` (an array containing one empty object), the empty object,
and everything else a parse failure. -/
def toyParse : String → Option JTop :=
  fun s =>
    if s = "[\x7b\x7d]" then some (.arr [.obj []])
    else if s = "\x7b\x7d" then some (.obj [])
    else none

/-! ### Auxiliary definitions for the proofs -/

/-- The first entry of an association list with the given key (used to
reason about `jget` and `dictMerge`). -/
def firstEntry : Rec → String → Option (String × JAtom)
  | [], _ => none
  | p :: r, k => if p.1 = k then some p else firstEntry r k

/-! ### Concrete fixtures used to evaluate the store at specific inputs -/

/-- An earlier-timestamped record already in the store. -/
def sampleOld : Rec :=
  [("id", JAtom.str "a"), ("timestamp", JAtom.str "2024-01-01T00:00:00")]

/-- A later-timestamped record being appended. -/
def sampleNew : Rec :=
  [("id", JAtom.str "b"), ("timestamp", JAtom.str "2024-01-02T00:00:00")]

/-- A store whose backing file holds `sampleOld` and whose cache is cold. -/
def sampleStore : Store :=
  { file := some (.arr [.obj sampleOld]), fileVer := 0, cacheVer := none, cache := [] }

/-- A two-record file for exercising the update path. -/
def updOld : Rec :=
  [("id", JAtom.str "a"), ("status", JAtom.str "completed"),
   ("timestamp", JAtom.str "2024-01-01T00:00:00")]

/-- The record targeted by the concrete update (newest, so listed first). -/
def updTarget : Rec :=
  [("id", JAtom.str "b"), ("status", JAtom.str "completed"),
   ("timestamp", JAtom.str "2024-02-02T00:00:00")]

/-- A store holding `updOld` and `updTarget`, cache cold. -/
def updStore : Store :=
  { file := some (.arr [.obj updOld, .obj updTarget]), fileVer := 0,
    cacheVer := none, cache := [] }

end Fynd

namespace Fynd

/-! ### Theorems for the sentiment heuristic (claims C5, C6) -/

/-- C5: for every rating r in [1,5], the sentiment heuristic applied to r
and empty or whitespace-only text returns r exactly (skipping keyword
scoring); if the rating is unparseable or out of range with empty text, it
returns null (`none`). -/
theorem heuristic_empty_text_returns_rating (review_text : String)
    (hempty : pyTrim (pyLower review_text) = "") :
    (∀ r : Int, 1 ≤ r → r ≤ 5 →
      predict_stars_from_text_heuristic (some r) review_text = some r)
    ∧ (∀ r : Int, r < 1 ∨ 5 < r →
      predict_stars_from_text_heuristic (some r) review_text = none)
    ∧ predict_stars_from_text_heuristic none review_text = none := by
  refine ⟨?_, ?_, ?_⟩
  · intro r h1 h5
    simp [predict_stars_from_text_heuristic, hempty, h1, h5]
  · intro r hr
    have hnot : ¬ (1 ≤ r ∧ r ≤ 5) := by omega
    simp [predict_stars_from_text_heuristic, hempty, hnot]
  · simp [predict_stars_from_text_heuristic, hempty]

/-- Witness for C5 at concrete inputs: whitespace-only text with rating 4
(in range), rating 9 (out of range), and an unparseable rating. -/
theorem heuristic_empty_text_returns_rating_witness :
    predict_stars_from_text_heuristic (some 4) "  " = some 4
    ∧ predict_stars_from_text_heuristic (some 9) "  " = none
    ∧ predict_stars_from_text_heuristic none "  " = none := by
  have h := heuristic_empty_text_returns_rating "  " (by decide)
  exact ⟨h.1 4 (by decide) (by decide), h.2.1 9 (Or.inr (by decide)), h.2.2⟩

/-- C6: on non-empty text, an accumulated keyword score of at most -2
forces the heuristic to 1 regardless of the base rating, and a score of at
least 4 forces it to 5 regardless of the base rating. -/
theorem heuristic_score_extremes (rating : Option Int) (review_text : String)
    (hne : pyTrim (pyLower review_text) ≠ "") :
    (keywordScore (pyLower review_text) ≤ -2 →
      predict_stars_from_text_heuristic rating review_text = some 1)
    ∧ (4 ≤ keywordScore (pyLower review_text) →
      predict_stars_from_text_heuristic rating review_text = some 5) := by
  constructor
  · intro hs
    simp only [predict_stars_from_text_heuristic, if_neg hne]
    rw [if_neg (by omega), if_neg (by omega), if_neg (by omega),
      if_neg (by omega), if_neg (by omega), if_neg (by omega), if_pos hs]
  · intro hs
    simp only [predict_stars_from_text_heuristic, if_neg hne]
    rw [if_pos hs]

/-- Witness for C6 at concrete inputs: "terrible awful" scores -4 so the
result is 1 even with base rating 5; "amazing excellent" scores +4 so the
result is 5 even with base rating 1. -/
theorem heuristic_score_extremes_witness :
    predict_stars_from_text_heuristic (some 5) "terrible awful" = some 1
    ∧ predict_stars_from_text_heuristic (some 1) "amazing excellent" = some 5 := by
  refine ⟨?_, ?_⟩
  · exact (heuristic_score_extremes (some 5) "terrible awful" (by decide)).1
      (by decide)
  · exact (heuristic_score_extremes (some 1) "amazing excellent" (by decide)).2
      (by decide)

end Fynd

namespace Fynd

/-! ### Helper lemmas about strings -/

/-- An append whose left part is non-empty is non-empty. -/
theorem append_left_ne (s t : String) (h : s ≠ "") : s ++ t ≠ "" := by
  intro he
  apply h
  have hd : s.data ++ t.data = [] := by
    have hc := congrArg String.data he
    rwa [String.data_append] at hc
  exact String.ext (List.append_eq_nil.mp hd).1

/-- Every branch of the instant customer response is non-empty. -/
theorem instantResponse_ne (name snippet ratingStr : String) (effective : Int) :
    instantResponse name snippet ratingStr effective ≠ "" := by
  unfold instantResponse
  split
  · repeat apply append_left_ne
    decide
  · split
    · repeat apply append_left_ne
      decide
    · repeat apply append_left_ne
      decide

/-- Every branch of the instant admin summary is non-empty. -/
theorem instantSummary_ne (snippet ratingStr : String) (effective : Int) :
    instantSummary snippet ratingStr effective ≠ "" := by
  unfold instantSummary
  split
  · repeat apply append_left_ne
    decide
  · split
    · repeat apply append_left_ne
      decide
    · repeat apply append_left_ne
      decide

/-- Every branch of the instant recommended actions is non-empty. -/
theorem instantActions_ne (effective : Int) : instantActions effective ≠ "" := by
  unfold instantActions
  split
  · decide
  · split
    · decide
    · decide

/-- The three text fields of the fallback (instant) pack are non-empty. -/
theorem fallback_fields_ne (rating : Option Int) (review_text : String)
    (username : Option String) :
    (fallback_ai_pack rating review_text username).ai_response ≠ ""
    ∧ (fallback_ai_pack rating review_text username).ai_summary ≠ ""
    ∧ (fallback_ai_pack rating review_text username).ai_recommended_actions ≠ "" :=
  ⟨instantResponse_ne _ _ _ _, instantSummary_ne _ _ _, instantActions_ne _⟩

/-! ### Claim C2: the generator is total and never returns empty fields -/

/-- C2: for every rating, review text, and optional username, and whether or
not a model endpoint is configured (and whatever the model and the JSON
parser do), `generate_ai_pack` is a total function — it never raises — and
returns a complete pack whose `ai_response`, `ai_summary` and
`ai_recommended_actions` are all non-empty strings. -/
theorem generate_ai_pack_total_nonempty (parse : String → Option JTop)
    (modelConfigured : Bool) (response : Option String) (rating : Option Int)
    (review_text : String) (username : Option String) :
    (generate_ai_pack parse modelConfigured response rating review_text username).ai_response ≠ ""
    ∧ (generate_ai_pack parse modelConfigured response rating review_text username).ai_summary ≠ ""
    ∧ (generate_ai_pack parse modelConfigured response rating review_text username).ai_recommended_actions ≠ "" := by
  simp only [generate_ai_pack]
  split
  · exact fallback_fields_ne rating review_text username
  · split
    · exact fallback_fields_ne rating review_text username
    · rename_i hcond
      push_neg at hcond
      exact ⟨hcond.1, hcond.2.1, hcond.2.2⟩

/-! ### Claim C7: the snippet embedded in the admin summary -/

/-- The snippet embeds into each branch of the admin summary. -/
theorem summary_embeds (snippet ratingStr : String) (effective : Int)
    (h : snippet ≠ "") :
    snippet.data <:+: (instantSummary snippet ratingStr effective).data := by
  unfold instantSummary
  simp only [if_neg h]
  split
  · exact ⟨("Customer gave a " ++ ratingStr ++
      "-star rating and the review feels **negative**. Key issue described: **").data,
      "**.".data, by simp [String.data_append, List.append_assoc]⟩
  · split
    · exact ⟨("Customer gave a " ++ ratingStr ++
        "-star rating and the review sounds **mixed/neutral**. Main points: **").data,
        "**.".data, by simp [String.data_append, List.append_assoc]⟩
    · exact ⟨("Customer gave a " ++ ratingStr ++
        "-star rating and the review feels **positive**. Key praise: **").data,
        "**.".data, by simp [String.data_append, List.append_assoc]⟩

/-- The summary field of the instant pack, unfolded. -/
theorem instant_ai_pack_summary_eq (rating : Option Int) (review_text : String)
    (username : Option String) :
    (instant_ai_pack rating review_text username).ai_summary =
      instantSummary (mkSnippet review_text) (ratingDisplay rating)
        ((predict_stars_from_text_heuristic rating review_text).getD
          (match rating with
           | some r => if 1 ≤ r ∧ r ≤ 5 then r else 3
           | none => 3)) := rfl

/-- C7 counterexample: the claim says an ellipsis is appended only to a
truncated snippet and that a non-truncated snippet is embedded unmodified.
The one-word review "great" is not truncated (1 word of at most 18), yet
the code appends an ellipsis: the embedded snippet is "great...", not
"great", and the admin summary shows the modified snippet. -/
theorem snippet_ellipsis_without_truncation :
    (pySplitWs (pyTrim "great")).length ≤ 18
    ∧ mkSnippet "great" ≠ snippet_core "great"
    ∧ mkSnippet "great" = "great..."
    ∧ (instant_ai_pack (some 5) "great" none).ai_summary =
      "Customer gave a 5-star rating and the review feels **positive**. Key praise: **great...**." := by
  decide

/-- C7 as amended: the instant pack's admin summary embeds a snippet built
from an at-most-18-word prefix of the review's words, and an ellipsis is
appended to the snippet if and only if the snippet is non-empty and does
not already end in terminal punctuation — regardless of whether the
snippet was truncated; a snippet ending in terminal punctuation (or an
empty one) is embedded unmodified. -/
theorem snippet_spec (review_text : String) :
    (∃ ws, ws <+: pySplitWs (pyTrim review_text) ∧ ws.length ≤ 18 ∧
      snippet_core review_text = pyTrim (joinSpace ws))
    ∧ (snippet_core review_text ≠ "" →
        endsTerminalPunct (snippet_core review_text) = false →
        mkSnippet review_text = snippet_core review_text ++ "...")
    ∧ (snippet_core review_text = "" ∨
        endsTerminalPunct (snippet_core review_text) = true →
        mkSnippet review_text = snippet_core review_text)
    ∧ (∀ (rating : Option Int) (username : Option String),
        mkSnippet review_text ≠ "" →
        (mkSnippet review_text).data <:+:
          ((instant_ai_pack rating review_text username).ai_summary).data) := by
  refine ⟨?_, ?_, ?_, ?_⟩
  · exact ⟨(pySplitWs (pyTrim review_text)).take 18,
      ⟨(pySplitWs (pyTrim review_text)).drop 18, List.take_append_drop 18 _⟩,
      List.length_take_le 18 _, rfl⟩
  · intro h1 h2
    simp only [mkSnippet]
    rw [if_pos ⟨h1, h2⟩]
  · intro h
    simp only [mkSnippet]
    rw [if_neg]
    rintro ⟨hne, hf⟩
    rcases h with h | h
    · exact hne h
    · rw [h] at hf
      exact Bool.noConfusion hf
  · intro rating username hsnip
    rw [instant_ai_pack_summary_eq]
    exact summary_embeds _ _ _ hsnip

/-- Witness for C7 (amended) at a concrete input: for the review
"food was cold" the snippet is the full text with an ellipsis appended,
and it embeds into the admin summary. -/
theorem snippet_spec_witness :
    mkSnippet "food was cold" = "food was cold..."
    ∧ ("food was cold...").data <:+:
      ((instant_ai_pack (some 2) "food was cold" none).ai_summary).data := by
  have h := snippet_spec "food was cold"
  refine ⟨?_, ?_⟩
  · have h2 := h.2.1 (by decide) (by decide)
    rw [h2]
    decide
  · have h4 := h.2.2.2 (some 2) none (by decide)
    have hm : mkSnippet "food was cold" = "food was cold..." := by
      have h2 := h.2.1 (by decide) (by decide)
      rw [h2]
      decide
    rwa [hm] at h4

end Fynd

namespace Fynd

/-! ### Claim C10: JSON extraction control flow -/

/-- The head of a `dropWhile` result falsifies the predicate. -/
theorem head_dropWhile_not (p : Char → Bool) :
    ∀ (l : List Char) (c : Char) (cs : List Char),
      l.dropWhile p = c :: cs → p c = false := by
  intro l
  induction l with
  | nil =>
    intro c cs h
    simp [List.dropWhile] at h
  | cons a as ih =>
    intro c cs h
    rw [List.dropWhile_cons] at h
    by_cases hp : p a
    · rw [if_pos hp] at h
      exact ih c cs h
    · rw [if_neg hp] at h
      injection h with h1 _
      subst h1
      simpa using hp

/-- Structure of the regex match: a successful `braceSpan` is a contiguous
span of the input that starts at the first opening brace (nothing before it
is an opening brace), ends at the last closing brace (nothing after it is a
closing brace), and begins with `lbrace` and ends with `rbrace`. -/
theorem braceSpan_structure (s : String) (c : String) (h : braceSpan s = some c) :
    ∃ pre post, s.data = pre ++ c.data ++ post
      ∧ (∀ a ∈ pre, a ≠ lbrace)
      ∧ (∀ a ∈ post, a ≠ rbrace)
      ∧ (∃ t, c.data = lbrace :: t)
      ∧ (∃ t, c.data = t ++ [rbrace]) := by
  simp only [braceSpan] at h
  by_cases h0 : s.data.dropWhile (fun c => decide (c ≠ lbrace)) = []
  · rw [if_pos h0] at h
    exact absurd h (by simp)
  rw [if_neg h0] at h
  by_cases h1 : ((s.data.dropWhile (fun c => decide (c ≠ lbrace))).reverse.dropWhile
      (fun c => decide (c ≠ rbrace))).reverse = []
  · rw [if_pos h1] at h
    exact absurd h (by simp)
  rw [if_neg h1] at h
  have hc : c = ⟨((s.data.dropWhile (fun c => decide (c ≠ lbrace))).reverse.dropWhile
      (fun c => decide (c ≠ rbrace))).reverse⟩ := (Option.some.inj h).symm
  subst hc
  obtain ⟨c0, cs0, hm0⟩ := List.exists_cons_of_ne_nil h0
  obtain ⟨d, ds, hm1⟩ := List.exists_cons_of_ne_nil h1
  -- the part before the first opening brace
  have hsplit : s.data.takeWhile (fun c => decide (c ≠ lbrace)) ++ (c0 :: cs0) = s.data := by
    rw [← hm0]
    exact List.takeWhile_append_dropWhile _ _
  have hc0 : c0 = lbrace := by
    have := head_dropWhile_not _ s.data c0 cs0 hm0
    simpa using this
  -- the suffix after the last closing brace (reversed prefix)
  have hrev : (c0 :: cs0).reverse.dropWhile (fun c => decide (c ≠ rbrace)) = (d :: ds).reverse := by
    have h2 := congrArg List.reverse hm1
    rw [List.reverse_reverse, hm0] at h2
    exact h2
  have hrevne : (d :: ds).reverse ≠ [] := by simp
  rcases he : (d :: ds).reverse with _ | ⟨e, es⟩
  · exact absurd he hrevne
  have herb : e = rbrace := by
    have := head_dropWhile_not _ (c0 :: cs0).reverse e es (by rw [hrev, he])
    simpa using this
  have hmid : c0 :: cs0 =
      (d :: ds) ++ ((c0 :: cs0).reverse.takeWhile (fun c => decide (c ≠ rbrace))).reverse := by
    have h2 : (c0 :: cs0).reverse.takeWhile (fun c => decide (c ≠ rbrace)) ++
        (d :: ds).reverse = (c0 :: cs0).reverse := by
      rw [← hrev]
      exact List.takeWhile_append_dropWhile _ _
    have h3 := congrArg List.reverse h2
    rw [List.reverse_append, List.reverse_reverse, List.reverse_reverse] at h3
    exact h3.symm
  have hdata : (⟨((s.data.dropWhile (fun c => decide (c ≠ lbrace))).reverse.dropWhile
      (fun c => decide (c ≠ rbrace))).reverse⟩ : String).data = d :: ds := by
    show ((s.data.dropWhile (fun c => decide (c ≠ lbrace))).reverse.dropWhile
      (fun c => decide (c ≠ rbrace))).reverse = d :: ds
    rw [hm0] at hm1 ⊢
    exact hm1
  refine ⟨s.data.takeWhile (fun c => decide (c ≠ lbrace)),
    ((c0 :: cs0).reverse.takeWhile (fun c => decide (c ≠ rbrace))).reverse,
    ?_, ?_, ?_, ?_, ?_⟩
  · rw [hdata, List.append_assoc, ← hmid]
    exact hsplit.symm
  · intro a ha
    have := List.mem_takeWhile_imp ha
    simpa using this
  · intro a ha
    rw [List.mem_reverse] at ha
    have := List.mem_takeWhile_imp ha
    simpa using this
  · have hd : d = c0 := by
      have h4 := hmid
      rw [List.cons_append] at h4
      exact (List.cons.inj h4.symm).1
    exact ⟨ds, by rw [hdata, hd, hc0]⟩
  · refine ⟨es.reverse, ?_⟩
    have h5 : (d :: ds) = (e :: es).reverse := by
      rw [← he, List.reverse_reverse]
    rw [hdata, h5, List.reverse_cons, herb]

/-- C10: for every parser behavior and every non-empty input, (a) a full
parse yielding a non-object returns `none` outright — in particular the
brace-span fallback is never consulted; (b) a full parse yielding an object
returns its fields; (c) only when the full parse fails is the fallback
attempted, and it parses exactly the brace-delimited span; (d) that span
runs from the first opening brace of the (stripped) input to its last
closing brace. -/
theorem extract_json_strong_spec (parse : String → Option JTop) (raw : String)
    (hraw : raw ≠ "") :
    (∀ v, parse (pyTrim raw) = some v → (∀ kvs, v ≠ JTop.obj kvs) →
      extract_json_strong parse raw = none)
    ∧ (∀ kvs, parse (pyTrim raw) = some (JTop.obj kvs) →
      extract_json_strong parse raw = some kvs)
    ∧ (parse (pyTrim raw) = none →
      extract_json_strong parse raw =
        match braceSpan (pyTrim raw) with
        | none => none
        | some cand =>
          match parse cand with
          | some (.obj kvs) => some kvs
          | _ => none)
    ∧ (∀ c, braceSpan (pyTrim raw) = some c →
        ∃ pre post, (pyTrim raw).data = pre ++ c.data ++ post
          ∧ (∀ a ∈ pre, a ≠ lbrace)
          ∧ (∀ a ∈ post, a ≠ rbrace)
          ∧ (∃ t, c.data = lbrace :: t)
          ∧ (∃ t, c.data = t ++ [rbrace])) := by
  refine ⟨?_, ?_, ?_, ?_⟩
  · intro v hv hnob
    simp only [extract_json_strong]
    rw [if_neg hraw, hv]
    cases v with
    | atom a => rfl
    | arr l => rfl
    | obj kvs => exact absurd rfl (hnob kvs)
  · intro kvs hv
    simp only [extract_json_strong]
    rw [if_neg hraw, hv]
  · intro hnone
    simp only [extract_json_strong]
    rw [if_neg hraw, hnone]
  · intro c hc
    exact braceSpan_structure _ _ hc

/-- Witness for C10 at concrete inputs, with the concrete parser
`toyParse`: the document `[` `{` `}` `]` parses in full to an array, so the
result is `none` even though the brace-delimited span `{` `}` would have
parsed to an object; the document `{` `}` parses to an object and its
fields are returned; the document `xx` `{` `}` fails the full parse and the
fallback parses the span from the first `{` to the last `}`. -/
theorem extract_json_strong_spec_witness :
    extract_json_strong toyParse "[\x7b\x7d]" = none
    ∧ toyParse (braceSpan (pyTrim "[\x7b\x7d]")).get! = some (.obj [])
    ∧ extract_json_strong toyParse "\x7b\x7d" = some []
    ∧ extract_json_strong toyParse "xx\x7b\x7d" = some []
    ∧ (∃ pre post, (pyTrim "xx\x7b\x7d").data = pre ++ ("\x7b\x7d" : String).data ++ post
        ∧ (∀ a ∈ pre, a ≠ lbrace)
        ∧ (∀ a ∈ post, a ≠ rbrace)
        ∧ (∃ t, ("\x7b\x7d" : String).data = lbrace :: t)
        ∧ (∃ t, ("\x7b\x7d" : String).data = t ++ [rbrace])) := by
  refine ⟨?_, by decide, ?_, ?_, ?_⟩
  · exact (extract_json_strong_spec toyParse "[\x7b\x7d]" (by decide)).1
      (.arr [.obj []]) (by decide) (by intro kvs h; exact JTop.noConfusion h)
  · exact (extract_json_strong_spec toyParse "\x7b\x7d" (by decide)).2.1 []
      (by decide)
  · have h := (extract_json_strong_spec toyParse "xx\x7b\x7d" (by decide)).2.2.1
      (by decide)
    rw [h]
    decide
  · exact (extract_json_strong_spec toyParse "xx\x7b\x7d" (by decide)).2.2.2
      "\x7b\x7d" (by decide)

end Fynd

namespace Fynd

/-! ### Claim C4: malformed file contents degrade to an empty result -/

/-- C4: for every backing-file content that is not well-formed JSON
(`file = none`: `json.load` raised), or whose top-level value is a scalar,
or is an object that does not wrap a `submissions` array, a fresh read
(`load`) returns the empty result set — and for a top-level array it
returns the element-filtered, sorted records — rather than raising to the
caller (the function is total). -/
theorem load_submissions_malformed_degrades (s : Store)
    (hfresh : ¬ s.cacheVer = some s.fileVer) :
    (s.file = none → (load_submissions s).1 = [])
    ∧ (∀ a, s.file = some (JTop.atom a) → (load_submissions s).1 = [])
    ∧ (∀ kvs, s.file = some (JTop.obj kvs) →
        (∀ l, ¬ jgetSub kvs "submissions" = some (JSub.arr l)) →
        (load_submissions s).1 = [])
    ∧ (∀ l, s.file = some (JTop.arr l) →
        sortable (shapeSubs (JTop.arr l)) = true →
        (load_submissions s).1 = sortByTsDesc (l.filterMap
          (fun i => match i with | JItem.obj r => some r | _ => none))) := by
  refine ⟨?_, ?_, ?_, ?_⟩
  · intro hf
    simp [load_submissions, load_unlocked, hfresh, hf]
  · intro a hf
    simp [load_submissions, load_unlocked, hfresh, hf, shapeSubs, sortable,
      sortByTsDesc]
  · intro kvs hf hns
    have hsh : shapeSubs (JTop.obj kvs) = [] := by
      rcases hg : jgetSub kvs "submissions" with _ | v
      · simp [shapeSubs, hg]
      · cases v with
        | atom a => simp [shapeSubs, hg]
        | arr l => exact absurd hg (hns l)
        | obj kvs2 => simp [shapeSubs, hg]
    simp [load_submissions, load_unlocked, hfresh, hf, hsh, sortable, sortByTsDesc]
  · intro l hf hsort
    simp only [load_submissions, load_unlocked, hfresh, if_false, hf]
    rw [if_pos hsort]
    simp [shapeSubs]

/-- Witness for C4 at concrete inputs: a malformed file, a bare number, an
object with a non-list `submissions`, and an array holding one record and
one stray scalar (which is filtered out). -/
theorem load_submissions_malformed_degrades_witness :
    (load_submissions (⟨none, 0, none, []⟩ : Store)).1 = []
    ∧ (load_submissions (⟨some (.atom (.num 3)), 0, none, []⟩ : Store)).1 = []
    ∧ (load_submissions
        (⟨some (.obj [("submissions", JSub.atom (.num 1))]), 0, none, []⟩ : Store)).1 = []
    ∧ (load_submissions
        (⟨some (.arr [.obj sampleOld, .atom (.num 7)]), 0, none, []⟩ : Store)).1 =
      [sampleOld] := by
  refine ⟨?_, ?_, ?_, ?_⟩
  · exact (load_submissions_malformed_degrades _ (by decide)).1 rfl
  · exact (load_submissions_malformed_degrades _ (by decide)).2.1 _ rfl
  · exact (load_submissions_malformed_degrades _ (by decide)).2.2.1 _ rfl
      (by intro l h; cases h)
  · have h := (load_submissions_malformed_degrades
      (⟨some (.arr [.obj sampleOld, .atom (.num 7)]), 0, none, []⟩ : Store)
      (by decide)).2.2.2
      [.obj sampleOld, .atom (.num 7)] rfl (by decide)
    rw [h]
    decide

/-! ### Claim C1: the round-trip / newest-first ordering claim -/

/-- C1 (evidence of the code bug): `save_submission` refreshes the cache
with the new record appended at the end, without re-sorting.  Appending
`sampleNew` (timestamp 2024-01-02) to a store holding `sampleOld`
(timestamp 2024-01-01) and then loading returns `[sampleOld, sampleNew]`
on the cache-hit path — the strictly newer record comes last, so `load`
is not newest-first and the new record does not precede the
earlier-timestamped one; the claim's ordering property fails exactly on
the cache-hit read after the write. -/
theorem save_breaks_newest_first_on_cache_hit :
    (load_submissions (save_submission sampleNew sampleStore).2).1 =
      [sampleOld, sampleNew]
    ∧ charListLt (recTs sampleOld).data (recTs sampleNew).data = true
    ∧ (save_submission sampleNew sampleStore).2.cacheVer =
      some (save_submission sampleNew sampleStore).2.fileVer
    ∧ ¬ (load_submissions (save_submission sampleNew sampleStore).2).1 =
      [sampleNew, sampleOld] := by
  refine ⟨by decide, by decide, by decide, by decide⟩

end Fynd

namespace Fynd

/-! ### Claim C3: update merges fields, frames the rest, NotFound on
missing ids -/

/-- Lookup through an append tries the left list first. -/
theorem jget_append (a b : Rec) (k : String) :
    jget (a ++ b) k = match jget a k with
      | some v => some v
      | none => jget b k := by
  induction a with
  | nil => simp [jget]
  | cons p r ih =>
    rcases p with ⟨k', v⟩
    by_cases hk : k' = k
    · simp [jget, hk]
    · simp [jget, hk, ih]

/-- A found first entry carries the looked-up key. -/
theorem firstEntry_key (r : Rec) (k : String) (p : String × JAtom)
    (h : firstEntry r k = some p) : p.1 = k := by
  induction r with
  | nil => cases h
  | cons q rest ih =>
    by_cases hk : q.1 = k
    · rw [firstEntry, if_pos hk] at h
      injection h with h1
      subst h1
      exact hk
    · rw [firstEntry, if_neg hk] at h
      exact ih h

/-- `jget` is the value of the first entry. -/
theorem jget_eq_firstEntry (r : Rec) (k : String) :
    jget r k = (firstEntry r k).map (fun p => p.2) := by
  induction r with
  | nil => rfl
  | cons q rest ih =>
    rcases q with ⟨k', v⟩
    by_cases hk : k' = k
    · simp [jget, firstEntry, hk]
    · simp [jget, firstEntry, hk, ih]

/-- Lookup in the overridden copy of `s` (the first half of a dict merge). -/
theorem jget_mapped (s u : Rec) (k : String) :
    jget (s.map (fun p => (p.1, (jget u p.1).getD p.2))) k =
      (firstEntry s k).map (fun p => (jget u p.1).getD p.2) := by
  induction s with
  | nil => rfl
  | cons q rest ih =>
    rcases q with ⟨k', v⟩
    by_cases hk : k' = k
    · simp [jget, firstEntry, hk]
    · simp [jget, firstEntry, hk, ih]

/-- Filtering out keys present in `s` does not change lookups of keys
absent from `s`. -/
theorem jget_filtered (s u : Rec) (k : String) (hs : jget s k = none) :
    jget (u.filter (fun p => (jget s p.1).isNone)) k = jget u k := by
  induction u with
  | nil => rfl
  | cons q rest ih =>
    rcases q with ⟨k', v⟩
    by_cases hk : k' = k
    · have hkeep : (jget s k').isNone = true := by
        rw [hk, hs]
        rfl
      simp [List.filter_cons, hkeep, jget, hk, hs]
    · by_cases hq : (jget s k').isNone = true
      · simp [List.filter_cons, hq, jget, hk, ih]
      · simp only [List.filter_cons]
        rw [if_neg (by simpa using hq)]
        rw [ih]
        simp [jget, hk]

/-- The field law of `{**old, **updates}`: a key named in the update takes
the update's value; every other key keeps the old record's value. -/
theorem dictMerge_jget (s u : Rec) (k : String) :
    jget (dictMerge s u) k = match jget u k with
      | some v => some v
      | none => jget s k := by
  unfold dictMerge
  rw [jget_append, jget_mapped]
  cases hf : firstEntry s k with
  | none =>
    have hs : jget s k = none := by
      rw [jget_eq_firstEntry, hf]
      rfl
    show jget (u.filter (fun p => (jget s p.1).isNone)) k =
      match jget u k with
      | some v => some v
      | none => jget s k
    rw [jget_filtered s u k hs, hs]
    cases jget u k <;> rfl
  | some p =>
    have hk := firstEntry_key s k p hf
    have hs : jget s k = some p.2 := by
      rw [jget_eq_firstEntry, hf]
      rfl
    show some ((jget u p.1).getD p.2) =
      match jget u k with
      | some v => some v
      | none => jget s k
    rw [hk, hs]
    cases jget u k <;> rfl

/-- When no record matches, the update loop reports nothing found. -/
theorem updateFirst_none (p : Rec → Bool) (u : Rec) :
    ∀ l : List Rec, (∀ r ∈ l, p r = false) → updateFirst p u l = none := by
  intro l
  induction l with
  | nil => intro _; rfl
  | cons r rs ih =>
    intro h
    have hr := h r (List.mem_cons_self r rs)
    simp only [updateFirst]
    rw [if_neg (by simp [hr])]
    rw [ih (fun x hx => h x (List.mem_cons_of_mem r hx))]

/-- When the first match is at index `i`, the update loop replaces exactly
that element by the merge and returns it. -/
theorem updateFirst_found (p : Rec → Bool) (u : Rec) :
    ∀ (l : List Rec) (i : Nat) (old : Rec),
      l.get? i = some old → p old = true →
      (∀ k b, k < i → l.get? k = some b → p b = false) →
      updateFirst p u l = some (l.set i (dictMerge old u), dictMerge old u) := by
  intro l
  induction l with
  | nil =>
    intro i old hget _ _
    simp at hget
  | cons r rs ih =>
    intro i old hget hp hmin
    cases i with
    | zero =>
      have hro : r = old := by simpa using hget
      subst hro
      simp only [updateFirst]
      rw [if_pos hp]
      rfl
    | succ i =>
      have hr : p r = false := hmin 0 r (Nat.succ_pos i) (by simp)
      have hrec := ih i old (by simpa using hget) hp
        (fun k b hk hb => hmin (k + 1) b (Nat.succ_lt_succ hk) (by simpa using hb))
      simp only [updateFirst]
      rw [if_neg (by simp [hr]), hrec]
      rfl

/-- A read leaves the backing file untouched. -/
theorem load_unlocked_snd_file (s : Store) : (load_unlocked s).2.file = s.file := by
  unfold load_unlocked
  split
  · rfl
  · split
    · rfl
    · dsimp only
      split
      · rfl
      · rfl

/-- After a read, either the state is unchanged or the cache is valid and
holds the returned records. -/
theorem load_unlocked_cases (s : Store) :
    (load_unlocked s).2 = s ∨
    ((load_unlocked s).2.cacheVer = some ((load_unlocked s).2.fileVer) ∧
     (load_unlocked s).2.cache = (load_unlocked s).1) := by
  unfold load_unlocked
  split
  · exact Or.inl rfl
  · split
    · exact Or.inl rfl
    · dsimp only
      split
      · exact Or.inr ⟨rfl, rfl⟩
      · exact Or.inl rfl

/-- Reading twice returns the same records (the second read is a cache hit
or a repeat of the same degraded read). -/
theorem load_unlocked_idem (s : Store) :
    (load_unlocked (load_unlocked s).2).1 = (load_unlocked s).1 := by
  rcases load_unlocked_cases s with h | ⟨h1, h2⟩
  · rw [h]
  · set s2 := (load_unlocked s).2 with hs2
    have hhit : load_unlocked s2 = (s2.cache, s2) := by
      unfold load_unlocked
      rw [if_pos h1]
    rw [hhit, h2]

/-- C3: `update(id, partial)` on an id present in the store returns the
merged record and changes only the fields named in the partial update
(every other field of that record keeps its value, by `dictMerge_jget`),
leaves every other record unchanged, and the refreshed store lists exactly
the old records with the matched one replaced; on an id absent from the
store it returns NotFound (`none`) and leaves the backing file and the
loadable records unchanged. -/
theorem update_submission_return_spec (s : Store) (id : String) (u : Rec) :
    (∀ i old, (load_submissions s).1.get? i = some old →
      matchesId id old = true →
      (∀ k b, k < i → (load_submissions s).1.get? k = some b →
        matchesId id b = false) →
      (update_submission_return id u s).1 = some (dictMerge old u)
      ∧ (load_submissions ((update_submission_return id u s).2)).1 =
          (load_submissions s).1.set i (dictMerge old u)
      ∧ (∀ key, jget (dictMerge old u) key =
          match jget u key with
          | some v => some v
          | none => jget old key)
      ∧ (∀ j, ¬ j = i →
          (load_submissions ((update_submission_return id u s).2)).1.get? j =
            (load_submissions s).1.get? j))
    ∧ ((∀ r ∈ (load_submissions s).1, matchesId id r = false) →
      (update_submission_return id u s).1 = none
      ∧ ((update_submission_return id u s).2).file = s.file
      ∧ (load_submissions ((update_submission_return id u s).2)).1 =
          (load_submissions s).1) := by
  constructor
  · intro i old hget hp hmin
    have hup := updateFirst_found (matchesId id) u (load_unlocked s).1 i old
      hget hp hmin
    have hres : update_submission_return id u s =
        (some (dictMerge old u),
          ⟨some (.arr (((load_unlocked s).1.set i (dictMerge old u)).map JItem.obj)),
            (load_unlocked s).2.fileVer + 1,
            some ((load_unlocked s).2.fileVer + 1),
            (load_unlocked s).1.set i (dictMerge old u)⟩) := by
      simp only [update_submission_return]
      rw [hup]
    have hload : (load_submissions ((update_submission_return id u s).2)).1 =
        (load_submissions s).1.set i (dictMerge old u) := by
      rw [hres]
      simp only [load_submissions]
      unfold load_unlocked
      rw [if_pos rfl]
    refine ⟨by rw [hres], hload, fun key => dictMerge_jget old u key, ?_⟩
    intro j hj
    rw [hload]
    exact List.get?_set_ne _ _ (fun he => hj he.symm)
  · intro hall
    have hnone := updateFirst_none (matchesId id) u (load_unlocked s).1 hall
    have hres : update_submission_return id u s = (none, (load_unlocked s).2) := by
      simp only [update_submission_return]
      rw [hnone]
    refine ⟨by rw [hres], ?_, ?_⟩
    · rw [hres]
      exact load_unlocked_snd_file s
    · rw [hres]
      exact load_unlocked_idem s

/-- Witness for C3 at concrete inputs: updating the existing id `b` with
`{status: "failed"}` returns the merged record (only `status` changed),
leaves the other record in place, and the refreshed listing shows exactly
that replacement; updating the missing id `zz` returns NotFound and leaves
the file and the listing unchanged. -/
theorem update_submission_return_spec_witness :
    (update_submission_return "b" [("status", JAtom.str "failed")] updStore).1 =
      some (dictMerge updTarget [("status", JAtom.str "failed")])
    ∧ dictMerge updTarget [("status", JAtom.str "failed")] =
      [("id", JAtom.str "b"), ("status", JAtom.str "failed"),
       ("timestamp", JAtom.str "2024-02-02T00:00:00")]
    ∧ (load_submissions
        (update_submission_return "b" [("status", JAtom.str "failed")] updStore).2).1 =
      [dictMerge updTarget [("status", JAtom.str "failed")], updOld]
    ∧ jget (dictMerge updTarget [("status", JAtom.str "failed")]) "id" =
      jget updTarget "id"
    ∧ (update_submission_return "zz" [("status", JAtom.str "failed")] updStore).1 = none
    ∧ (update_submission_return "zz" [("status", JAtom.str "failed")] updStore).2.file =
      updStore.file
    ∧ (load_submissions
        (update_submission_return "zz" [("status", JAtom.str "failed")] updStore).2).1 =
      (load_submissions updStore).1 := by
  have h1 := (update_submission_return_spec updStore "b"
    [("status", JAtom.str "failed")]).1 0 updTarget (by decide) (by decide)
    (fun k b hk _ => absurd hk (Nat.not_lt_zero k))
  have h2 := (update_submission_return_spec updStore "zz"
    [("status", JAtom.str "failed")]).2 (by decide)
  refine ⟨h1.1, by decide, ?_, ?_, h2.1, h2.2.1, h2.2.2⟩
  · rw [h1.2.1]
    decide
  · rw [h1.2.2.1 "id"]
    decide

end Fynd

namespace Fynd

/-! ### Claim C8: id uniqueness -/

/-- C8 counterexample: the id is derived only from the creation second and
a random draw below 100, and `submit_review` performs no uniqueness check.
Two submissions in the same second with the same draw (probability 1/100
per pair within a second) produce the same id, and the store accepts both:
after two such submits the listing holds two records with the identical id
`sub_20240101120000_7`.  Uniqueness is therefore merely probable, not
guaranteed. -/
theorem duplicate_id_possible :
    ((load_submissions
      (submit_review toyParse false none "20240101120000" 7
        "2024-01-01T12:00:00" 1 "bad"
        (submit_review toyParse false none "20240101120000" 7
          "2024-01-01T12:00:00" 1 "bad"
          (⟨some (.arr []), 0, none, []⟩ : Store)).2).2).1.map
      (fun r => jget r "id")) =
    [some (JAtom.str "sub_20240101120000_7"),
     some (JAtom.str "sub_20240101120000_7")] := by
  decide

set_option maxRecDepth 8000 in
/-- Decimal numerals below 100 are distinct as strings. -/
theorem toString_fin100_inj : ∀ a b : Fin 100, toString a.val = toString b.val → a = b := by
  decide

/-- C8 as amended: a generated id is distinct from the id of every record
already in the store *provided* the new submission's (creation-second,
random-draw) pair differs from that of every existing record — the id
determines that pair, so distinct pairs (with the timestamps of equal
length, as `strftime` stamps always are) give distinct ids.  When a pair
repeats within one second, ids collide (see the counterexample), so
uniqueness is probable rather than guaranteed. -/
theorem genId_injective_on_distinct_inputs (t1 t2 : String) (r1 r2 : Fin 100)
    (hlen : t1.length = t2.length) (hne : ¬ (t1 = t2 ∧ r1 = r2)) :
    ¬ genId t1 r1 = genId t2 r2 := by
  intro h
  apply hne
  have hd := congrArg String.data h
  simp only [genId, String.data_append] at hd
  have hlen' : (("sub_".data ++ t1.data) ++ "_".data).length =
      (("sub_".data ++ t2.data) ++ "_".data).length := by
    have ht : t1.data.length = t2.data.length := hlen
    simp [List.length_append, ht]
  obtain ⟨hpre, hnum⟩ := List.append_inj hd hlen'
  have hlen'' : ("sub_".data ++ t1.data).length = ("sub_".data ++ t2.data).length := by
    have ht : t1.data.length = t2.data.length := hlen
    simp [List.length_append, ht]
  obtain ⟨hpre2, _⟩ := List.append_inj hpre hlen''
  obtain ⟨_, ht⟩ := List.append_inj hpre2 rfl
  exact ⟨String.ext ht, toString_fin100_inj r1 r2 (String.ext hnum)⟩

/-- Witness for C8 (amended) at concrete inputs: different seconds with the
same draw, and the same second with different draws, both give distinct
ids. -/
theorem genId_injective_on_distinct_inputs_witness :
    ¬ genId "20240101120000" 3 = genId "20240101120001" 3
    ∧ ¬ genId "20240101120000" 3 = genId "20240101120000" 4 := by
  constructor
  · exact genId_injective_on_distinct_inputs "20240101120000" "20240101120001"
      3 3 (by decide) (by decide)
  · exact genId_injective_on_distinct_inputs "20240101120000" "20240101120000"
      3 4 (by decide) (by decide)

/-! ### Claim C9: stats endpoint -/

/-- A record without the `rating` key makes the comprehension raise. -/
theorem getRatings_none (subs : List Rec)
    (hex : ∃ r ∈ subs, jget r "rating" = none) : getRatings subs = none := by
  induction subs with
  | nil =>
    rcases hex with ⟨r, hr, _⟩
    cases hr
  | cons a rest ih =>
    rcases hex with ⟨r, hr, hnone⟩
    rcases List.mem_cons.mp hr with h | h
    · subst h
      simp [getRatings, hnone]
    · simp only [getRatings]
      cases jget a "rating" with
      | none => rfl
      | some v =>
        rw [ih ⟨r, h, hnone⟩]
        rfl

/-- When every record carries an integer rating, the comprehension returns
exactly those values. -/
theorem getRatings_some : ∀ (subs : List Rec) (ns : List Int),
    subs.map (fun r => jget r "rating") = ns.map (fun n => some (JAtom.num n)) →
    getRatings subs = some (ns.map JAtom.num) := by
  intro subs
  induction subs with
  | nil =>
    intro ns h
    cases ns with
    | nil => rfl
    | cons n ns => cases h
  | cons a rest ih =>
    intro ns h
    cases ns with
    | nil => cases h
    | cons n ns =>
      simp only [List.map_cons] at h
      have h1 := (List.cons.inj h).1
      have h2 := (List.cons.inj h).2
      simp only [getRatings, h1, ih ns h2]
      rfl

/-- Integer ratings all coerce in `sum`. -/
theorem toNums_map_num : ∀ ns : List Int, toNums (ns.map JAtom.num) = some ns := by
  intro ns
  induction ns with
  | nil => rfl
  | cons n rest ih =>
    simp only [List.map_cons, toNums, toNumPy, ih]
    rfl

/-- C9: for every non-empty stored submission list, if any record lacks the
`rating` field the stats endpoint fails with a 500 error instead of
skipping that record; and when every record carries an (integer) rating it
returns the total count, the mean rounded to two decimals (scaled by 100,
half-even), and the per-star counts for stars 1-5 computed over all
records. -/
theorem get_stats_spec (subs : List Rec) (hne : ¬ subs = []) :
    ((∃ r ∈ subs, jget r "rating" = none) → get_stats subs = .error 500)
    ∧ (∀ ns : List Int,
        subs.map (fun r => jget r "rating") = ns.map (fun n => some (JAtom.num n)) →
        get_stats subs = .ok ⟨subs.length,
          roundHalfEvenDiv (100 * ns.sum) subs.length, mkDistribution ns⟩) := by
  have hemp : subs.isEmpty = false := by
    cases subs with
    | nil => exact absurd rfl hne
    | cons a rest => rfl
  constructor
  · intro hex
    simp only [get_stats, hemp, Bool.false_eq_true, if_false]
    rw [getRatings_none subs hex]
  · intro ns hmap
    have hlen : subs.length = ns.length := by
      have := congrArg List.length hmap
      simpa using this
    simp only [get_stats, hemp, Bool.false_eq_true, if_false]
    rw [getRatings_some subs ns hmap]
    simp only [toNums_map_num ns]
    rw [show ns.length = subs.length from hlen.symm]

/-- Witness for C9 at concrete inputs: a single record without `rating`
gives a 500; two records rated 4 and 5 give total 2, mean 4.50 (450 in
hundredths), and the per-star counts. -/
theorem get_stats_spec_witness :
    get_stats [[("x", JAtom.null)]] = .error 500
    ∧ get_stats [[("rating", JAtom.num 4)], [("rating", JAtom.num 5)]] =
      .ok ⟨2, 450, [("1", 0), ("2", 0), ("3", 0), ("4", 1), ("5", 1)]⟩ := by
  constructor
  · exact (get_stats_spec [[("x", JAtom.null)]] (by decide)).1
      ⟨[("x", JAtom.null)], by decide, by decide⟩
  · have h := (get_stats_spec [[("rating", JAtom.num 4)], [("rating", JAtom.num 5)]]
      (by decide)).2 [4, 5] (by decide)
    rw [h]
    congr 1

end Fynd
